import Mathlib

/-!
Verification of the URL-verification and citation-validation core of the
ECSSR backend repository (revisions `backend/server.js`, here referred to
by their archive names `part_000` = v15.1, `part_001` = v4.0,
`part_007` = v15.0).

The JavaScript functions are shallowly embedded as total Lean functions
over `String` / `List Char`.  Network calls are modelled by an explicit
environment `env : String → Nat → FetchResult` giving the outcome of the
`k`-th HTTP fetch a single verification performs against a given URL
string.  Platform primitives (`new URL`, `decodeURIComponent`,
`String.prototype.trim`, `toLowerCase`) are modelled by executable Lean
functions documented at their definitions, with the simplifications
stated there.
-/

namespace EcssrCore

/-! ## JavaScript string primitives -/

/-- The character class of the JavaScript regular-expression escape
`\s` (also the class trimmed by `String.prototype.trim`): space, tab,
line feed, vertical tab, form feed, carriage return, NBSP and the
Unicode space separators, plus BOM. -/
def jsWsChar (c : Char) : Bool :=
  c.toNat = 0x20 || c.toNat = 0x09 || c.toNat = 0x0A || c.toNat = 0x0B ||
  c.toNat = 0x0C || c.toNat = 0x0D || c.toNat = 0xA0 || c.toNat = 0x1680 ||
  (0x2000 ≤ c.toNat && c.toNat ≤ 0x200A) || c.toNat = 0x2028 ||
  c.toNat = 0x2029 || c.toNat = 0x202F || c.toNat = 0x205F ||
  c.toNat = 0x3000 || c.toNat = 0xFEFF

/-- `String.prototype.trim` on the character list: drop the leading run
of whitespace, then the trailing run. -/
def jsTrimList (l : List Char) : List Char :=
  (l.dropWhile jsWsChar).rdropWhile jsWsChar

/-- `String.prototype.trim`. -/
def jsTrim (s : String) : String :=
  String.mk (jsTrimList s.data)

/-- ASCII lower-casing of one character.  JavaScript
`String.prototype.toLowerCase` also folds non-ASCII letters; the code
under verification only ever compares schemes and hostnames, which are
ASCII in every input considered here. -/
def asciiLowerChar (c : Char) : Char :=
  if 0x41 ≤ c.toNat && c.toNat ≤ 0x5A then Char.ofNat (c.toNat + 0x20) else c

/-- `String.prototype.toLowerCase`, ASCII fragment. -/
def asciiLower (s : String) : String :=
  String.mk (s.data.map asciiLowerChar)

/-- Does `pat` occur at the head of `s`? -/
def startsWithList (pat s : List Char) : Bool :=
  match pat, s with
  | [], _ => true
  | _ :: _, [] => false
  | p :: ps, c :: cs => p == c && startsWithList ps cs

/-- Does `pat` occur as a contiguous sublist of `s`?  This is
`String.prototype.includes` on character lists. -/
def hasSubList (pat : List Char) : List Char → Bool
  | [] => startsWithList pat []
  | c :: rest => startsWithList pat (c :: rest) || hasSubList pat rest

/-- `s.includes(pat)` from JavaScript. -/
def strIncludes (s pat : String) : Bool :=
  hasSubList pat.data s.data

/-- `s.endsWith(pat)` from JavaScript. -/
def strEndsWith (s pat : String) : Bool :=
  startsWithList pat.data.reverse s.data.reverse

/-- Decimal digit test. -/
def isDigitChar (c : Char) : Bool :=
  0x30 ≤ c.toNat && c.toNat ≤ 0x39

/-- Value of a decimal digit run, most significant first; the model of
`parseInt(run, 10)` on a string of digits. -/
def digitsToNat (ds : List Char) : Nat :=
  ds.foldl (fun a c => 10 * a + (c.toNat - 0x30)) 0

/-! ## Model of the WHATWG `new URL` constructor

Only the observations the code makes are modelled: whether parsing
succeeds, the scheme, and the hostname.  Simplifications relative to
the full standard, none of which is exercised by any theorem below:
hosts in `[` brackets (IPv6) are rejected; `%`-escapes in hosts are
rejected rather than decoded; non-ASCII hosts are kept verbatim rather
than punycoded; for non-special schemes the hostname is reported as the
authority text. -/

/-- A parsed URL, reduced to the fields the code reads
(`url.protocol` without its trailing colon, and `url.hostname`). -/
structure URLParts where
  scheme : String
  hostname : String
deriving DecidableEq, Repr

/-- Leading/trailing characters removed by the URL parser before
parsing: C0 controls and space. -/
def c0OrSpace (c : Char) : Bool :=
  c.toNat ≤ 0x20

/-- Characters removed by the URL parser anywhere in the input:
tab, line feed, carriage return. -/
def tabOrNewline (c : Char) : Bool :=
  c.toNat = 0x09 || c.toNat = 0x0A || c.toNat = 0x0D

/-- ASCII letter test. -/
def isAsciiAlpha (c : Char) : Bool :=
  (0x61 ≤ c.toNat && c.toNat ≤ 0x7A) || (0x41 ≤ c.toNat && c.toNat ≤ 0x5A)

/-- Characters allowed after the first character of a scheme. -/
def isSchemeChar (c : Char) : Bool :=
  isAsciiAlpha c || isDigitChar c || c == '+' || c == '-' || c == '.'

/-- URL-parser input preprocessing: strip surrounding C0/space, remove
interior tab and newline characters. -/
def stripUrlInput (l : List Char) : List Char :=
  (((l.dropWhile c0OrSpace).rdropWhile c0OrSpace).filter (fun c => ! tabOrNewline c))

/-- Split scheme from the rest: the accumulator holds the scheme
characters read so far, reversed. -/
def splitSchemeAux (acc : List Char) : List Char → Option (List Char × List Char)
  | [] => none
  | c :: rest =>
    if c == ':' then some (acc.reverse, rest)
    else if isSchemeChar c then splitSchemeAux (c :: acc) rest
    else none

/-- Schemes the WHATWG standard treats as special (authority
mandatory, `\` treated as `/`). -/
def specialSchemes : List String :=
  ["http", "https", "ws", "wss", "ftp", "file"]

/-- Code points that may not appear in a host. -/
def forbiddenHostChar (c : Char) : Bool :=
  c.toNat ≤ 0x20 ||
  ['#', '%', '/', ':', '?', '@', '[', '\\', ']', '^', '|', '<', '>', '"'].contains c

/-- Extract the hostname from an authority string: drop the userinfo
(everything up to the last `@`), split off a numeric port at the first
`:`, reject forbidden host characters, lower-case the rest. -/
def hostFromAuthority (auth : List Char) : Option (List Char) :=
  let hostPort := (auth.reverse.takeWhile (fun c => c != '@')).reverse
  let host := hostPort.takeWhile (fun c => c != ':')
  let port := hostPort.dropWhile (fun c => c != ':')
  let portOk :=
    match port with
    | [] => true
    | _ :: ds => ds.all isDigitChar && digitsToNat ds ≤ 65535
  if portOk && host.all (fun c => ! forbiddenHostChar c) then
    some (host.map asciiLowerChar)
  else
    none

/-- The model of `new URL(s)`: `some` of the parts on success, `none`
where the constructor throws. -/
def parseURL (s : String) : Option URLParts :=
  let l := stripUrlInput s.data
  match l with
  | [] => none
  | c :: _ =>
    if ! isAsciiAlpha c then none
    else
      match splitSchemeAux [] l with
      | none => none
      | some (schemeCs, rest) =>
        let scheme := String.mk (schemeCs.map asciiLowerChar)
        if specialSchemes.contains scheme then
          let rest1 := rest.dropWhile (fun c => c == '/' || c == '\\')
          let auth := rest1.takeWhile (fun c => !(c == '/' || c == '\\' || c == '?' || c == '#'))
          match hostFromAuthority auth with
          | some host =>
            if host.isEmpty && scheme != "file" then none
            else some ⟨scheme, String.mk host⟩
          | none => none
        else
          match rest with
          | '/' :: '/' :: rest2 =>
            let auth := rest2.takeWhile (fun c => !(c == '/' || c == '?' || c == '#'))
            match hostFromAuthority auth with
            | some host => some ⟨scheme, String.mk host⟩
            | none => none
          | _ => some ⟨scheme, ""⟩

/-! ## URL validation and domain filtering (source functions) -/

/-- `isValidUrl` from `part_000` lines 43-56: parse with `new URL`;
require protocol `http:`/`https:` and a hostname of length at least 3;
a parse failure yields `false`. -/
def isValidUrl (urlString : String) : Bool :=
  match parseURL urlString with
  | some u => (u.scheme == "http" || u.scheme == "https") && 3 ≤ u.hostname.length
  | none => false

/-- `isUaeDomain` from `part_007` lines 16-23: trim, lower-case, parse
with `new URL`, and test whether the hostname ends with the suffix
`.ae`; a parse failure yields `false`. -/
def isUaeDomain (urlStr : String) : Bool :=
  match parseURL (asciiLower (jsTrim urlStr)) with
  | some u => strEndsWith u.hostname ".ae"
  | none => false

/-! ## Model of `decodeURIComponent`

The JavaScript built-in leaves literal characters alone, turns each
`%XX` hex escape into a byte, requires maximal sequences of escaped
bytes at or above `0x80` to form valid minimal-length UTF-8, and throws
a `URIError` otherwise (malformed escape, stray continuation byte, bad
lead byte, overlong form, surrogate, or out-of-range code point).  The
model returns `none` exactly where the built-in throws. -/

/-- Value of one hexadecimal digit. -/
def hexVal (c : Char) : Option Nat :=
  if 0x30 ≤ c.toNat && c.toNat ≤ 0x39 then some (c.toNat - 0x30)
  else if 0x41 ≤ c.toNat && c.toNat ≤ 0x46 then some (c.toNat - 0x41 + 10)
  else if 0x61 ≤ c.toNat && c.toNat ≤ 0x66 then some (c.toNat - 0x61 + 10)
  else none

/-- First pass: cut the input into literal characters and escaped
bytes, failing on a `%` not followed by two hex digits. -/
def pctTokenize : List Char → Option (List (Sum Char Nat))
  | [] => some []
  | '%' :: a :: b :: rest =>
    match hexVal a, hexVal b, pctTokenize rest with
    | some ha, some hb, some t => some (Sum.inr (16 * ha + hb) :: t)
    | _, _, _ => none
  | '%' :: [] => none
  | '%' :: [_] => none
  | c :: rest =>
    if c == '%' then none
    else
      match pctTokenize rest with
      | some t => some (Sum.inl c :: t)
      | none => none

/-- Continuation byte test. -/
def isContByte (b : Nat) : Bool :=
  0x80 ≤ b && b ≤ 0xBF

/-- Second pass: assemble escaped bytes into UTF-8 code points,
enforcing minimal encodings and scalar-value ranges. -/
def utf8Assemble : List (Sum Char Nat) → Option (List Char)
  | [] => some []
  | Sum.inl c :: rest =>
    match utf8Assemble rest with
    | some t => some (c :: t)
    | none => none
  | Sum.inr b1 :: rest =>
    if b1 < 0x80 then
      match utf8Assemble rest with
      | some t => some (Char.ofNat b1 :: t)
      | none => none
    else if 0xC2 ≤ b1 && b1 ≤ 0xDF then
      match rest with
      | Sum.inr b2 :: rest2 =>
        if isContByte b2 then
          match utf8Assemble rest2 with
          | some t => some (Char.ofNat ((b1 - 0xC0) * 0x40 + (b2 - 0x80)) :: t)
          | none => none
        else none
      | _ => none
    else if 0xE0 ≤ b1 && b1 ≤ 0xEF then
      match rest with
      | Sum.inr b2 :: Sum.inr b3 :: rest3 =>
        if isContByte b2 && isContByte b3 then
          let cp := (b1 - 0xE0) * 0x1000 + (b2 - 0x80) * 0x40 + (b3 - 0x80)
          if 0x800 ≤ cp && !(0xD800 ≤ cp && cp ≤ 0xDFFF) then
            match utf8Assemble rest3 with
            | some t => some (Char.ofNat cp :: t)
            | none => none
          else none
        else none
      | _ => none
    else if 0xF0 ≤ b1 && b1 ≤ 0xF4 then
      match rest with
      | Sum.inr b2 :: Sum.inr b3 :: Sum.inr b4 :: rest4 =>
        if isContByte b2 && isContByte b3 && isContByte b4 then
          let cp := (b1 - 0xF0) * 0x40000 + (b2 - 0x80) * 0x1000 +
                    (b3 - 0x80) * 0x40 + (b4 - 0x80)
          if 0x10000 ≤ cp && cp ≤ 0x10FFFF then
            match utf8Assemble rest4 with
            | some t => some (Char.ofNat cp :: t)
            | none => none
          else none
        else none
      | _ => none
    else none

/-- The model of `decodeURIComponent`. -/
def decodeURIComponentM (s : String) : Option String :=
  match pctTokenize s.data with
  | some toks =>
    match utf8Assemble toks with
    | some cs => some (String.mk cs)
    | none => none
  | none => none

/-! ## `cleanUrl` (`part_000` lines 59-75)

The source trims, returns the trimmed string if already valid,
otherwise reassigns `url = decodeURIComponent(url)` inside a `try`;
after a successful decode both the valid and the invalid case return
the (now decoded) variable, while a decoding `URIError` leaves the
trimmed string in place. -/

/-- `cleanUrl` as written in the source. -/
def cleanUrl (url : String) : String :=
  let url := jsTrim url
  if isValidUrl url then url
  else
    match decodeURIComponentM url with
    | some url' => if isValidUrl url' then url' else url'
    | none => url

/-- Modelled from the spec: `clean` as the specification states it —
the still-unparseable case is claimed to return the original trimmed
string rather than the decoded one. -/
def cleanSpecClaim (url : String) : String :=
  let t := jsTrim url
  if isValidUrl t then t
  else
    match decodeURIComponentM t with
    | some d => if isValidUrl d then d else t
    | none => t

/-- The amended description of `clean`: after a successful decode the
decoded string is returned whether or not it became parseable; only a
decoding failure returns the trimmed original. -/
def cleanSpecAmended (url : String) : String :=
  let t := jsTrim url
  if isValidUrl t then t
  else
    match decodeURIComponentM t with
    | some d => d
    | none => t

/-! ## Network environment

One verification of one URL performs a bounded sequence of HTTP
fetches.  `env url k` is the outcome of the `k`-th fetch of `url`
within a single top-level verification: a status line, a non-timeout
network error, or an abort by the timeout timer.  Distinct URLs never
share a fetch, so the environment needs no inter-URL ordering. -/

/-- Outcome of one `fetch` call. -/
inductive FetchResult where
  | ok (status : Nat)
  | netErr
  | timeout
deriving DecidableEq, Repr

/-- A network environment. -/
def NetEnv : Type :=
  String → Nat → FetchResult

/-! ## `verifyURL` / `verifyURLs` (`part_000` lines 78-211, v15.1) -/

/-- `MAX_ATTEMPTS` from `part_000` line 79. -/
def MAX_ATTEMPTS : Nat := 2

/-- The 1000 ms backoff slept before the retry (`part_000` line 125);
recorded for reference, invisible to the functional model. -/
def RETRY_BACKOFF_MS : Nat := 1000

/-- `verifyURLWithGET` from `part_000` lines 148-181: a GET whose 2xx
or 3xx status is live, any other status dead; on a network error or
timeout the URL is assumed live exactly when the URL string contains
`.ae` as a substring. -/
def verifyURLWithGET000 (env : NetEnv) (url : String) (k : Nat) : Bool :=
  match env url k with
  | .ok s => 200 ≤ s && s < 400
  | _ => strIncludes url ".ae"

/-- The body of `verifyURL` from `part_000` lines 78-145, with
`retries` the number of retries still allowed
(`MAX_ATTEMPTS - attempt`): clean, reject syntactically invalid URLs,
issue a HEAD; 2xx/3xx is live, 405/403 falls back to GET, any other
status is dead; a timeout with retries left sleeps 1 s and re-enters
the whole probe on the cleaned URL; a final timeout or any non-timeout
network error assumes the URL live exactly when the (cleaned) URL
string contains `.ae` as a substring. -/
def verifyURL000Go (env : NetEnv) : Nat → String → Nat → Bool
  | retries, url, k =>
    let u := cleanUrl url
    if isValidUrl u then
      match env u k with
      | .ok s =>
        if 200 ≤ s && s < 400 then true
        else if s == 405 || s == 403 then verifyURLWithGET000 env u (k + 1)
        else false
      | .timeout =>
        match retries with
        | r + 1 => verifyURL000Go env r u (k + 1)
        | 0 => strIncludes u ".ae"
      | .netErr => strIncludes u ".ae"
    else false

/-- `verifyURL` from `part_000`, entered at `attempt = 1`. -/
def verifyURL000 (env : NetEnv) (url : String) : Bool :=
  verifyURL000Go env (MAX_ATTEMPTS - 1) url 0

/-- The candidate list the batch loop of `verifyURLs` (`part_000`
line 189) probes: inputs mapped through `cleanUrl` and filtered by
`isValidUrl`.  No deduplication and no size cap occur. -/
def probedCandidates000 (urls : List String) : List String :=
  (urls.map cleanUrl).filter isValidUrl

/-- The batch loop of `verifyURLs` (`part_000` lines 193-206) with
`batchSize = 3`: candidates are taken three at a time, each probed,
and the live ones appended in order.  The three-at-a-time slicing is
written as three explicit head cases so that the recursion is
structural. -/
def verifyURLs000Go (env : NetEnv) : List String → List String
  | [] => []
  | [u] => [u].filter (fun x => verifyURL000 env x)
  | [u, v] => [u, v].filter (fun x => verifyURL000 env x)
  | u :: v :: w :: rest =>
    [u, v, w].filter (fun x => verifyURL000 env x) ++ verifyURLs000Go env rest

/-- `verifyURLs` from `part_000` lines 184-211. -/
def verifyURLs000 (env : NetEnv) (urls : List String) : List String :=
  verifyURLs000Go env (probedCandidates000 urls)

/-! ## `verifyURL` / `verifyURLs` (`part_007` lines 14-144, v15.0) -/

/-- First-occurrence-preserving deduplication, the model of
`Array.from(new Set(xs))`; `seen` holds the values already emitted. -/
def dedupFirstAux (seen : List String) : List String → List String
  | [] => []
  | x :: rest =>
    if seen.contains x then dedupFirstAux seen rest
    else x :: dedupFirstAux (x :: seen) rest

/-- `filterUaeDomains` from `part_007` lines 24-27: drop falsy
entries, deduplicate preserving first occurrences, keep `.ae`
hostnames. -/
def filterUaeDomains (urls : List String) : List String :=
  (dedupFirstAux [] (urls.filter (fun u => u ≠ ""))).filter isUaeDomain

/-- `verifyURLWithGET` from `part_007` lines 97-125: only a 2xx GET is
live; every failure, `.ae` or not, is dead. -/
def verifyURLWithGET007 (env : NetEnv) (url : String) (k : Nat) : Bool :=
  match env url k with
  | .ok s => 200 ≤ s && s < 300
  | _ => false

/-- `verifyURL` from `part_007` lines 58-95: a HEAD whose 2xx status
is live; 405, a timeout, or any network error falls back to one GET;
any other status is dead.  No retry of the whole probe and no
assume-live policy exist in this revision. -/
def verifyURL007 (env : NetEnv) (url : String) : Bool :=
  match env url 0 with
  | .ok s =>
    if 200 ≤ s && s < 300 then true
    else if s == 405 then verifyURLWithGET007 env url 1
    else false
  | _ => verifyURLWithGET007 env url 1

/-- `verifyURLs` from `part_007` lines 127-144: restrict to `.ae`
domains (deduplicated), probe all in parallel, keep the live ones in
order. -/
def verifyURLs007 (env : NetEnv) (urls : List String) : List String :=
  (filterUaeDomains urls).filter (fun u => verifyURL007 env u)

/-! ## `processPerplexityResponse` (`part_000` lines 315-364)

The `data` argument is modelled by the two fields the function reads:
the answer text (`data.choices[0].message.content`, `''` when absent)
and the citation list (`data.citations`, `[]` when absent). -/

/-- The value `processPerplexityResponse` resolves to. -/
structure PerplexityResult where
  answer : String
  citations : List String
deriving DecidableEq, Repr

/-- `processPerplexityResponse` from `part_000` lines 315-364: with no
citations, or none whose cleaned form contains `.ae`, both fields are
emptied; when verification finds no live URL the answer is kept and up
to five unverified `.ae` candidates are substituted; otherwise up to
five verified URLs are returned. -/
def processPerplexityResponse (env : NetEnv) (answer : String)
    (citations : List String) : PerplexityResult :=
  if citations.isEmpty then ⟨"", []⟩
  else
    let uaeCitations := citations.filter (fun url => strIncludes (cleanUrl url) ".ae")
    if uaeCitations.isEmpty then ⟨"", []⟩
    else
      let validUrls := verifyURLs000 env uaeCitations
      if validUrls.isEmpty then ⟨answer, uaeCitations.take 5⟩
      else ⟨answer, validUrls.take 5⟩

/-! ## `CitationValidator` (`part_001` lines 42-141)

The validator instance carries only `validCitationRange`, the length
of the `sourceBooks` array given to the constructor (`part_001`
lines 43-46); the functions below take that bound `n` as their first
argument. -/

/-- The range a constructed validator stores: the length of the source
book list (an absent list defaults to `[]`). -/
def validRangeOfBooks (sourceBooks : List String) : Nat :=
  sourceBooks.length

/-- One extracted citation occurrence: the matched substring, its
parsed number, and its character offset. -/
structure Citation where
  original : String
  number : Nat
  position : Nat
deriving DecidableEq, Repr

/-- The global-regex scan of `extractCitations` (`part_001`
lines 51-64) on the pattern `\[(\d+)\]`: at each position, a match
starts iff the character is `[` followed by one or more digits and a
`]`.  Because a match can only start at `[` and the only `[` inside a
match is its first character, matches never overlap, so testing every
position one character at a time produces exactly the non-overlapping
global matches of the source regex, in text order.  Offsets count
characters (the code counts UTF-16 units; they agree on the text
considered here). -/
def extractCitationsAux : List Char → Nat → List Citation
  | [], _ => []
  | c :: rest, pos =>
    if c == '[' then
      let ds := rest.takeWhile isDigitChar
      if !ds.isEmpty && (rest.dropWhile isDigitChar).head? == some ']' then
        { original := String.mk ('[' :: ds ++ [']'])
          number := digitsToNat ds
          position := pos } :: extractCitationsAux rest (pos + 1)
      else extractCitationsAux rest (pos + 1)
    else extractCitationsAux rest (pos + 1)

/-- `extractCitations` from `part_001` lines 51-64. -/
def extractCitations (text : String) : List Citation :=
  extractCitationsAux text.data 0

/-- `isValidCitationNumber` from `part_001` lines 69-71. -/
def isValidCitationNumber (n : Nat) (num : Nat) : Bool :=
  1 ≤ num && num ≤ n

/-- `findInvalidCitations` from `part_001` lines 76-79. -/
def findInvalidCitations (n : Nat) (text : String) : List Citation :=
  (extractCitations text).filter (fun c => ! isValidCitationNumber n c.number)

/-- The in-range citations, as filtered at `part_001` line 120. -/
def validCitationsList (n : Nat) (text : String) : List Citation :=
  (extractCitations text).filter (fun c => isValidCitationNumber n c.number)

/-- Remove the first occurrence of `pat` from `s`, the model of
`String.prototype.replace` with a string pattern and empty
replacement. -/
def removeFirstOccur (s pat : List Char) : List Char :=
  match s with
  | [] => []
  | c :: rest =>
    if startsWithList pat (c :: rest) then (c :: rest).drop pat.length
    else c :: removeFirstOccur rest pat

/-- Insertion sort by descending position, the model of
`sort((a, b) => b.position - a.position)` at `part_001` line 90. -/
def insertByPosDesc (c : Citation) : List Citation → List Citation
  | [] => [c]
  | d :: rest =>
    if d.position ≤ c.position then c :: d :: rest
    else d :: insertByPosDesc c rest

/-- Sort citations by descending position. -/
def sortByPosDesc (l : List Citation) : List Citation :=
  l.foldr insertByPosDesc []

/-- The final `replace(/\s+/g, ' ')` collapse, tracking whether the
previous character was whitespace: every maximal run of whitespace
becomes a single space. -/
def collapseRunsAux (prevWs : Bool) : List Char → List Char
  | [] => []
  | c :: rest =>
    if jsWsChar c then
      if prevWs then collapseRunsAux true rest
      else ' ' :: collapseRunsAux true rest
    else c :: collapseRunsAux false rest

/-- `replace(/\s+/g, ' ')`: each maximal whitespace run becomes one
space. -/
def collapseRuns (l : List Char) : List Char :=
  collapseRunsAux false l

/-- `replace(/\s+/g, ' ').trim()` from `part_001` line 96. -/
def collapseWsAndTrim (s : String) : String :=
  String.mk (jsTrimList (collapseRuns s.data))

/-- `removeInvalidCitations` from `part_001` lines 84-97: delete the
first occurrence of each invalid citation literal, highest position
first, then collapse whitespace runs and trim. -/
def removeInvalidCitations (n : Nat) (text : String) : String :=
  let invalid := (extractCitations text).filter (fun c => ! isValidCitationNumber n c.number)
  let sorted := sortByPosDesc invalid
  let cleaned := sorted.foldl (fun acc c => String.mk (removeFirstOccur acc.data c.original.data)) text
  collapseWsAndTrim cleaned

/-- The record `validateAllCitations` returns (`part_001`
lines 102-123); each issue is modelled by the offending citation
number. -/
structure ValidationSummary where
  isValid : Bool
  totalCitationsFound : Nat
  validCitationsCount : Nat
  issues : List Nat
deriving DecidableEq, Repr

/-- `validateAllCitations` from `part_001` lines 102-123. -/
def validateAllCitations (n : Nat) (text : String) : ValidationSummary :=
  let citations := extractCitations text
  let issues := (citations.filter (fun c => ! isValidCitationNumber n c.number)).map (·.number)
  { isValid := issues.length == 0
    totalCitationsFound := citations.length
    validCitationsCount := (citations.filter (fun c => isValidCitationNumber n c.number)).length
    issues := issues }

/-- The record `getValidationReport` returns (`part_001`
lines 128-140). -/
structure ValidationReport where
  validation : ValidationSummary
  sourceCount : Nat
  invalidCitationsFound : Nat
  invalidCitationNumbers : List Nat
  cleanedText : String
  hasExternalReferences : Bool
deriving DecidableEq, Repr

/-- `getValidationReport` from `part_001` lines 128-140. -/
def getValidationReport (n : Nat) (text : String) : ValidationReport :=
  let validation := validateAllCitations n text
  let invalidCitations := findInvalidCitations n text
  { validation := validation
    sourceCount := n
    invalidCitationsFound := invalidCitations.length
    invalidCitationNumbers := invalidCitations.map (·.number)
    cleanedText := if validation.isValid then text else removeInvalidCitations n text
    hasExternalReferences := 0 < invalidCitations.length }

/-- The fifteen syntactically valid `.ae` URLs of the capping
scenario. -/
def fifteenAeUrls : List String :=
  ["https://a1.ae", "https://a2.ae", "https://a3.ae", "https://a4.ae",
   "https://a5.ae", "https://a6.ae", "https://a7.ae", "https://a8.ae",
   "https://a9.ae", "https://b1.ae", "https://b2.ae", "https://b3.ae",
   "https://b4.ae", "https://b5.ae", "https://b6.ae"]

/-! ## Helper lemmas -/

/-- The head of a `dropWhile` result fails the predicate. -/
theorem dropWhile_head_false (p : Char → Bool) :
    (l : List Char) → (b : Char) → (bs : List Char) →
      List.dropWhile p l = b :: bs → p b = false
  | [], _, _, h => by simp [List.dropWhile] at h
  | c :: rest, b, bs, h => by
    rw [List.dropWhile] at h
    split at h
    · exact dropWhile_head_false p rest b bs h
    · rename_i hc
      injection h with h1 _
      subst h1
      simpa using hc

/-- Trimming is idempotent: the trimmed list starts and ends in
non-whitespace, so a second trim removes nothing. -/
theorem jsTrimList_idem (l : List Char) :
    jsTrimList (jsTrimList l) = jsTrimList l := by
  unfold jsTrimList
  obtain ⟨r, hr⟩ := List.rdropWhile_prefix jsWsChar (l.dropWhile jsWsChar)
  have hdw : List.dropWhile jsWsChar
      (List.rdropWhile jsWsChar (l.dropWhile jsWsChar)) =
      List.rdropWhile jsWsChar (l.dropWhile jsWsChar) := by
    cases hA : List.rdropWhile jsWsChar (l.dropWhile jsWsChar) with
    | nil => rfl
    | cons b bs =>
      have hBeq : List.dropWhile jsWsChar l = b :: (bs ++ r) := by
        rw [← hr, hA]
        rfl
      have hpb : jsWsChar b = false := dropWhile_head_false jsWsChar l b (bs ++ r) hBeq
      simp [List.dropWhile, hpb]
  rw [hdw, List.rdropWhile_idempotent]

/-- `jsTrim` is idempotent. -/
theorem jsTrim_idem (s : String) : jsTrim (jsTrim s) = jsTrim s := by
  unfold jsTrim
  rw [jsTrimList_idem]

/-- One step of the v15.1 probe on a non-timeout network error:
no retry happens; the outcome is the substring test. -/
theorem verifyURL000Go_netErr (env : NetEnv) (retries : Nat) (url : String)
    (k : Nat) (hv : isValidUrl (cleanUrl url) = true)
    (h : env (cleanUrl url) k = FetchResult.netErr) :
    verifyURL000Go env retries url k = strIncludes (cleanUrl url) ".ae" := by
  rw [verifyURL000Go.eq_def]
  simp only [hv, if_true, h]

/-- One step of the v15.1 probe on a timeout with retries left:
the probe re-enters on the cleaned URL with the next fetch index. -/
theorem verifyURL000Go_timeout_step (env : NetEnv) (r : Nat) (url : String)
    (k : Nat) (hv : isValidUrl (cleanUrl url) = true)
    (h : env (cleanUrl url) k = FetchResult.timeout) :
    verifyURL000Go env (r + 1) url k = verifyURL000Go env r (cleanUrl url) (k + 1) := by
  conv_lhs => rw [verifyURL000Go.eq_def]
  simp only [hv, if_true, h]

/-- The last attempt of the v15.1 probe on a timeout: the outcome is
the substring test on the cleaned URL. -/
theorem verifyURL000Go_timeout_final (env : NetEnv) (url : String) (k : Nat)
    (hv : isValidUrl (cleanUrl url) = true)
    (h : env (cleanUrl url) k = FetchResult.timeout) :
    verifyURL000Go env 0 url k = strIncludes (cleanUrl url) ".ae" := by
  rw [verifyURL000Go.eq_def]
  simp only [hv, if_true, h]

/-- The batched loop of the v15.1 verifier is the plain filter by the
probe outcome: batching three at a time only bounds concurrency. -/
theorem verifyURLs000Go_eq_filter (env : NetEnv) :
    (l : List String) →
      verifyURLs000Go env l = l.filter (fun u => verifyURL000 env u)
  | [] => rfl
  | [_] => by simp [verifyURLs000Go]
  | [_, _] => by simp [verifyURLs000Go]
  | u :: v :: w :: rest => by
    rw [verifyURLs000Go, verifyURLs000Go_eq_filter env rest]
    rw [show u :: v :: w :: rest = [u, v, w] ++ rest from rfl]
    rw [List.filter_append]

/-- Members of the deduplicated list come from the input list. -/
theorem dedupFirstAux_subset (u : String) :
    (seen l : List String) → u ∈ dedupFirstAux seen l → u ∈ l
  | seen, [], h => by simp [dedupFirstAux] at h
  | seen, x :: rest, h => by
    rw [dedupFirstAux] at h
    split at h
    · exact List.mem_cons_of_mem x (dedupFirstAux_subset u seen rest h)
    · rcases List.mem_cons.mp h with h1 | h1
      · exact h1 ▸ List.mem_cons_self x rest
      · exact List.mem_cons_of_mem x (dedupFirstAux_subset u (x :: seen) rest h1)

/-- Members of the deduplicated list were not already seen. -/
theorem dedupFirstAux_not_seen (u : String) :
    (seen l : List String) → u ∈ dedupFirstAux seen l → ¬ u ∈ seen
  | seen, [], h => by simp [dedupFirstAux] at h
  | seen, x :: rest, h => by
    rw [dedupFirstAux] at h
    split at h
    · exact dedupFirstAux_not_seen u seen rest h
    · rcases List.mem_cons.mp h with h1 | h1
      · subst h1
        rename_i hx
        intro hu
        exact hx (List.elem_iff.mpr hu)
      · intro hu
        exact dedupFirstAux_not_seen u (x :: seen) rest h1 (List.mem_cons_of_mem x hu)

/-- The deduplicated list has no duplicates. -/
theorem dedupFirstAux_nodup :
    (seen l : List String) → (dedupFirstAux seen l).Nodup
  | _, [] => List.nodup_nil
  | seen, x :: rest => by
    rw [dedupFirstAux]
    split
    · exact dedupFirstAux_nodup seen rest
    · rw [List.nodup_cons]
      refine ⟨fun hmem => ?_, dedupFirstAux_nodup (x :: seen) rest⟩
      exact dedupFirstAux_not_seen x (x :: seen) rest hmem (List.mem_cons_self x seen)

/-! ## Claim C3 -/

/-- Claim C3: for every text and upper bound, the valid and invalid
citation lists partition the extracted markers exactly — their
concatenation is a permutation of the extraction (no marker lost or
duplicated) and no marker lies in both lists. -/
theorem claim3_partition (n : Nat) (text : String) :
    (validCitationsList n text ++ findInvalidCitations n text).Perm
      (extractCitations text) ∧
    List.Disjoint (validCitationsList n text) (findInvalidCitations n text) := by
  constructor
  · unfold validCitationsList findInvalidCitations
    exact List.filter_append_perm _ _
  · intro c hval hinv
    have h1 := (List.mem_filter.mp hval).2
    have h2 := (List.mem_filter.mp hinv).2
    rw [h1] at h2
    exact absurd h2 (by simp)

/-- Claim C3 witness: the partition at a concrete text with markers on
both sides of the bound. -/
theorem claim3_witness :
    (validCitationsList 3 "Answer [1] and also [2][2] but see [9]." ++
        findInvalidCitations 3 "Answer [1] and also [2][2] but see [9].").Perm
      (extractCitations "Answer [1] and also [2][2] but see [9].") ∧
    List.Disjoint
      (validCitationsList 3 "Answer [1] and also [2][2] but see [9].")
      (findInvalidCitations 3 "Answer [1] and also [2][2] but see [9].") :=
  claim3_partition 3 "Answer [1] and also [2][2] but see [9]."

/-! ## Claim C4 -/

/-- Claim C4 counterexample: `cleanUrl` is not idempotent.  The input
`hello%2520world` is not a URL; one decoding pass yields
`hello%20world`, still not a URL, which the function returns; cleaning
that result decodes again to `hello world`. -/
theorem claim4_counterexample :
    cleanUrl (cleanUrl "hello%2520world") ≠ cleanUrl "hello%2520world" := by
  decide

/-- Claim C4 amended: `cleanUrl` is idempotent on every input whose
trimmed form is already a valid URL (the trimmed string is returned and
cleans to itself); on other inputs a successful but still-unparseable
decoding pass returns the decoded string, which a second application
may decode further. -/
theorem claim4_amended (x : String) (h : isValidUrl (jsTrim x) = true) :
    cleanUrl (cleanUrl x) = cleanUrl x := by
  have h1 : cleanUrl x = jsTrim x := by
    unfold cleanUrl
    simp only [h, if_true]
  rw [h1]
  unfold cleanUrl
  rw [jsTrim_idem]
  simp only [h, if_true]

/-- Claim C4 witness: idempotence at a concrete valid URL. -/
theorem claim4_witness :
    cleanUrl (cleanUrl "https://wam.ae/foo") = cleanUrl "https://wam.ae/foo" :=
  claim4_amended "https://wam.ae/foo" (by decide)

/-! ## Claim C5 -/

/-- Claim C5 counterexample: on `hello%20world` — not a URL before or
after decoding — `cleanUrl` returns the decoded string `hello world`,
not the original trimmed string as the claim states. -/
theorem claim5_counterexample :
    cleanUrl "hello%20world" ≠ cleanSpecClaim "hello%20world" ∧
    cleanUrl "hello%20world" = "hello world" ∧
    cleanSpecClaim "hello%20world" = "hello%20world" ∧
    isValidUrl "hello world" = false := by
  decide

/-- Claim C5 amended: `cleanUrl` trims, returns the trimmed string
when it is already a valid absolute http/https URL with hostname of
length at least 3, otherwise attempts one percent-decoding pass; a
successful decode is returned whether or not the result became
parseable, and only a decoding failure returns the trimmed string; the
function is total. -/
theorem claim5_amended (url : String) : cleanUrl url = cleanSpecAmended url := by
  simp only [cleanUrl, cleanSpecAmended]
  split
  · rfl
  · cases h : decodeURIComponentM (jsTrim url) with
    | none => rfl
    | some d => simp only [ite_self]

/-! ## Claim C6 -/

/-- Claim C6: when every extracted marker is within `[1, n]`, the
stripping pass returns the text unchanged up to whitespace collapse,
and the validation report returns the input text itself as the cleaned
text. -/
theorem claim6_valid_markers_preserved (n : Nat) (text : String)
    (h : ∀ c ∈ extractCitations text, 1 ≤ c.number ∧ c.number ≤ n) :
    removeInvalidCitations n text = collapseWsAndTrim text ∧
    (getValidationReport n text).cleanedText = text := by
  have hinv : (extractCitations text).filter
      (fun c => ! isValidCitationNumber n c.number) = [] := by
    rw [List.filter_eq_nil_iff]
    intro c hc
    have hcn := h c hc
    simp [isValidCitationNumber]
    omega
  constructor
  · unfold removeInvalidCitations
    rw [hinv]
    rfl
  · unfold getValidationReport validateAllCitations findInvalidCitations
    simp [hinv]

/-- Claim C6 witness: a text whose two markers are both in range. -/
theorem claim6_witness :
    removeInvalidCitations 3 "See [1] and [2]." =
      collapseWsAndTrim "See [1] and [2]." ∧
    (getValidationReport 3 "See [1] and [2].").cleanedText = "See [1] and [2]." :=
  claim6_valid_markers_preserved 3 "See [1] and [2]." (by decide)

/-! ## Claim C8 -/

/-- Claim C8 counterexample: a validator built over zero sources (a
non-positive upper bound) does not reject its input — scanning runs
and a full report is produced. -/
theorem claim8_counterexample :
    (getValidationReport 0 "Fact [1].").validation.totalCitationsFound = 1 ∧
    (getValidationReport 0 "Fact [1].").cleanedText = "Fact ." := by
  decide

/-- Claim C8 amended: the citation component performs no argument
validation; with the degenerate bound 0 every text is scanned and a
normal report produced, never an invalid-argument error. -/
theorem claim8_amended (text : String) :
    (getValidationReport 0 text).validation.totalCitationsFound =
      (extractCitations text).length ∧
    (getValidationReport 0 text).sourceCount = 0 :=
  ⟨rfl, rfl⟩

/-! ## Claim C10 -/

/-- Claim C10 counterexample: with an empty source list, stripping the
sole marker `[2]` from `[1[2]3]` splices the remaining characters into
the new bracketed marker `[13]`, so the cleaned text still contains a
marker. -/
theorem claim10_counterexample :
    (getValidationReport (validRangeOfBooks []) "[1[2]3]").cleanedText = "[13]" ∧
    extractCitations "[13]" ≠ [] := by
  decide

/-- Claim C10 amended: with an empty (or absent) source list the range
is 0 and every operation returns normally: every extracted marker is
classified invalid, the report flags external references exactly when
a marker exists, the invalid count equals the total marker count and
the valid count is zero.  (The cleaned text removes each extracted
marker literal but, as the counterexample shows, deletion can splice
characters into new bracketed markers.) -/
theorem claim10_amended (text : String) :
    (∀ c ∈ extractCitations text,
        isValidCitationNumber (validRangeOfBooks []) c.number = false) ∧
    ((getValidationReport (validRangeOfBooks []) text).hasExternalReferences = true ↔
        extractCitations text ≠ []) ∧
    (getValidationReport (validRangeOfBooks []) text).invalidCitationsFound =
      (extractCitations text).length ∧
    (getValidationReport (validRangeOfBooks []) text).validation.validCitationsCount = 0 := by
  have hall : ∀ c ∈ extractCitations text,
      isValidCitationNumber (validRangeOfBooks []) c.number = false := by
    intro c _
    simp [isValidCitationNumber, validRangeOfBooks]
    omega
  have hfilter : (extractCitations text).filter
      (fun c => ! isValidCitationNumber (validRangeOfBooks []) c.number) =
      extractCitations text := by
    rw [List.filter_eq_self]
    intro c hc
    rw [hall c hc]
    rfl
  have hvalid : (extractCitations text).filter
      (fun c => isValidCitationNumber (validRangeOfBooks []) c.number) = [] := by
    rw [List.filter_eq_nil_iff]
    intro c hc
    rw [hall c hc]
    simp
  refine ⟨hall, ?_, ?_, ?_⟩
  · unfold getValidationReport findInvalidCitations
    simp only [hfilter]
    simp [List.length_pos]
  · unfold getValidationReport findInvalidCitations
    simp only [hfilter]
  · unfold getValidationReport validateAllCitations
    simp only [hvalid]
    rfl

/-- Claim C10 witness: a marker under the empty validator is flagged
as an external reference. -/
theorem claim10_witness :
    (getValidationReport (validRangeOfBooks []) "[5]").hasExternalReferences = true :=
  (claim10_amended "[5]").2.1.mpr (by decide)

/-! ## Claim C1 -/

/-- Claim C1 counterexample: a probe of `https://x.com/.ae` that fails
with a non-timeout network error is assumed live by the v15.1 prober —
with no retry — although the hostname `x.com` fails the allowed-domain
(hostname-suffix) check, under which the claim requires the outcome
`dead`.  The assume-live test is a substring test on the whole URL
string, not a hostname check. -/
theorem claim1_counterexample :
    verifyURL000 (fun _ _ => FetchResult.netErr) "https://x.com/.ae" = true ∧
    isUaeDomain "https://x.com/.ae" = false := by
  decide

/-- Claim C1 amended (v15.1 prober, `part_000`): only a timeout is
retried, exactly once, after the fixed 1 s backoff; a non-timeout
network error skips the retry; in either case, once the final attempt
has failed the outcome is assumed live iff the cleaned URL string
contains `.ae` as a substring (not a hostname-suffix check).  The
v15.0 prober (`part_007`) instead falls back to a single GET and
returns dead when that also fails, with no assume-live policy. -/
theorem claim1_amended (env : NetEnv) (url : String)
    (h1 : isValidUrl (cleanUrl url) = true)
    (h2 : isValidUrl (cleanUrl (cleanUrl url)) = true) :
    (env (cleanUrl url) 0 = FetchResult.netErr →
        verifyURL000 env url = strIncludes (cleanUrl url) ".ae") ∧
    (env (cleanUrl url) 0 = FetchResult.timeout →
        env (cleanUrl (cleanUrl url)) 1 = FetchResult.timeout →
        verifyURL000 env url = strIncludes (cleanUrl (cleanUrl url)) ".ae") ∧
    (∀ url2 : String, env url2 0 = FetchResult.timeout →
        env url2 1 = FetchResult.netErr → verifyURL007 env url2 = false) := by
  refine ⟨?_, ?_, ?_⟩
  · intro h
    unfold verifyURL000
    exact verifyURL000Go_netErr env (MAX_ATTEMPTS - 1) url 0 h1 h
  · intro ht1 ht2
    unfold verifyURL000
    rw [show MAX_ATTEMPTS - 1 = 0 + 1 from rfl]
    rw [verifyURL000Go_timeout_step env 0 url 0 h1 ht1]
    exact verifyURL000Go_timeout_final env (cleanUrl url) 1 h2 ht2
  · intro url2 ht hn
    unfold verifyURL007
    rw [ht]
    unfold verifyURLWithGET007
    rw [hn]

/-- Claim C1 witness: a valid `.ae` URL that times out on both
attempts is assumed live by the v15.1 prober. -/
theorem claim1_witness :
    verifyURL000 (fun _ _ => FetchResult.timeout) "https://wam.ae/x" = true := by
  have h := (claim1_amended (fun _ _ => FetchResult.timeout) "https://wam.ae/x"
    (by decide) (by decide)).2.1 rfl rfl
  rw [h]
  decide

/-! ## Claim C2 -/

/-- Claim C2 counterexample: the v15.1 batch verifier does not
deduplicate — a duplicated live URL is returned twice. -/
theorem claim2_counterexample :
    verifyURLs000 (fun _ _ => FetchResult.ok 200)
        ["https://wam.ae/x", "https://wam.ae/x"] =
      ["https://wam.ae/x", "https://wam.ae/x"] ∧
    ¬ (verifyURLs000 (fun _ _ => FetchResult.ok 200)
        ["https://wam.ae/x", "https://wam.ae/x"]).Nodup := by
  decide

/-- Claim C2 amended: every URL the v15.1 batch verifier returns is
the cleaned form of some input string, but duplicates are not removed;
the v15.0 batch verifier deduplicates before probing, so its output
has no duplicates and consists of input strings verbatim. -/
theorem claim2_amended :
    (∀ (env : NetEnv) (urls : List String) (u : String),
        u ∈ verifyURLs000 env urls → ∃ x, x ∈ urls ∧ u = cleanUrl x) ∧
    (∀ (env : NetEnv) (urls : List String), (verifyURLs007 env urls).Nodup) ∧
    (∀ (env : NetEnv) (urls : List String) (u : String),
        u ∈ verifyURLs007 env urls → u ∈ urls) := by
  refine ⟨?_, ?_, ?_⟩
  · intro env urls u hu
    rw [verifyURLs000, verifyURLs000Go_eq_filter] at hu
    have hu2 := (List.mem_filter.mp hu).1
    unfold probedCandidates000 at hu2
    have hu3 := (List.mem_filter.mp hu2).1
    obtain ⟨x, hx, hxe⟩ := List.mem_map.mp hu3
    exact ⟨x, hx, hxe.symm⟩
  · intro env urls
    unfold verifyURLs007 filterUaeDomains
    exact List.Nodup.filter _ (List.Nodup.filter _ (dedupFirstAux_nodup [] _))
  · intro env urls u hu
    unfold verifyURLs007 filterUaeDomains at hu
    have h1 := (List.mem_filter.mp hu).1
    have h2 := (List.mem_filter.mp h1).1
    have h3 := dedupFirstAux_subset u [] _ h2
    exact (List.mem_filter.mp h3).1

/-- Claim C2 witness: the subset properties at concrete inputs — a
returned URL of the v15.1 verifier is the cleaned form of an input,
and the v15.0 verifier run on a duplicated input returns a
duplicate-free list. -/
theorem claim2_witness :
    (∃ x, x ∈ (["https://wam.ae/foo"] : List String) ∧
        "https://wam.ae/foo" = cleanUrl x) ∧
    (verifyURLs007 (fun _ _ => FetchResult.ok 200)
        ["https://wam.ae/foo", "https://wam.ae/foo"]).Nodup :=
  ⟨claim2_amended.1 (fun _ _ => FetchResult.ok 200) ["https://wam.ae/foo"]
      "https://wam.ae/foo" (by decide),
    claim2_amended.2.1 (fun _ _ => FetchResult.ok 200)
      ["https://wam.ae/foo", "https://wam.ae/foo"]⟩

/-! ## Claim C7 -/

/-- Claim C7 counterexample: no cap exists — given 15 syntactically
valid `.ae` URLs the v15.1 batch verifier probes all 15 candidates
(and, with every probe succeeding, returns all 15), not at most 10. -/
theorem claim7_counterexample :
    10 < (probedCandidates000 fifteenAeUrls).length ∧
    verifyURLs000 (fun _ _ => FetchResult.ok 200) fifteenAeUrls = fifteenAeUrls := by
  decide

/-- Claim C7 amended: the v15.1 batch verifier caps nothing; the
three-at-a-time batch loop probes every candidate that survives
cleaning and the syntax filter, and returns exactly the live ones of
that whole list, in order. -/
theorem claim7_amended (env : NetEnv) (urls : List String) :
    verifyURLs000 env urls =
      (probedCandidates000 urls).filter (fun u => verifyURL000 env u) :=
  verifyURLs000Go_eq_filter env (probedCandidates000 urls)

/-! ## Claim C9 -/

/-- Claim C9 counterexample: when verification yields zero live URLs
but `.ae` candidates exist (here a single candidate answering 404),
the caller does not return an empty citation list — it substitutes the
unverified candidate. -/
theorem claim9_counterexample :
    processPerplexityResponse (fun _ _ => FetchResult.ok 404) "A"
        ["https://wam.ae/x"] =
      ⟨"A", ["https://wam.ae/x"]⟩ ∧
    verifyURLs000 (fun _ _ => FetchResult.ok 404)
      (["https://wam.ae/x"].filter (fun url => strIncludes (cleanUrl url) ".ae")) =
      [] := by
  decide

/-- Claim C9 amended: when verification yields zero live URLs the
caller returns the answer with an empty citation list only when no
citations or no `.ae`-substring candidates exist at all (and then with
an emptied answer); otherwise it keeps the generated answer and
substitutes up to five unverified `.ae` candidates. -/
theorem claim9_amended (env : NetEnv) (answer : String) (citations : List String)
    (h : verifyURLs000 env
        (citations.filter (fun url => strIncludes (cleanUrl url) ".ae")) = []) :
    processPerplexityResponse env answer citations =
      if citations.isEmpty ||
          (citations.filter (fun url => strIncludes (cleanUrl url) ".ae")).isEmpty
      then ⟨"", []⟩
      else ⟨answer,
        (citations.filter (fun url => strIncludes (cleanUrl url) ".ae")).take 5⟩ := by
  unfold processPerplexityResponse
  by_cases hc : citations.isEmpty
  · simp [hc]
  · simp only [hc, Bool.false_or, if_false]
    by_cases hu : (citations.filter (fun url => strIncludes (cleanUrl url) ".ae")).isEmpty
    · simp [hu]
    · simp [hu, h]

/-- Claim C9 witness: the fallback at a concrete dead candidate. -/
theorem claim9_witness :
    processPerplexityResponse (fun _ _ => FetchResult.ok 404) "A2"
        ["https://wam.ae/y"] =
      ⟨"A2", ["https://wam.ae/y"]⟩ := by
  have h := claim9_amended (fun _ _ => FetchResult.ok 404) "A2"
    ["https://wam.ae/y"] (by decide)
  rw [h]
  decide

end EcssrCore
